import Mathlib

/-
Verification of the f2 batch-renaming engine (operation.go).

The Go code is shallowly embedded: filesystem side effects are recorded as an
explicit trace of Effect values, and the outcome of each external filesystem
primitive (os.MkdirAll, os.Rename, os.Create, os.ReadFile plus JSON decoding)
is supplied by an Env of oracle functions, so each embedded operation is a
pure function from an Env and an Operation to a result, a final Operation and
an effect trace.  Go strings are Lean Strings; Go ints are Nat or Int.
-/

namespace F2

/-- Change mirrors the Go struct Change: one filename change. -/
structure Change where
  baseDir : String
  source : String
  target : String
  isDir : Bool
deriving DecidableEq, Repr

/-- renameError pairs a Change with the error hit while renaming it. -/
structure RenameError where
  entry : Change
  err : String
deriving DecidableEq, Repr

/-- One reported conflict: a kind plus the implicated changes.  The conflict
detector itself (Operation.validate) lives outside operation.go; apply only
tests whether the reported collection is nonempty. -/
structure ConflictRecord where
  kind : String
  changes : List Change
deriving DecidableEq, Repr

/-- mapFile mirrors the journal JSON document: a date and the operations. -/
structure MapFile where
  date : String
  operations : List Change
deriving DecidableEq, Repr

/-- A civil timestamp standing in for Go time.Time. -/
structure DateTime where
  year : Nat
  month : Nat
  day : Nat
  hour : Nat
  minute : Nat
  second : Nat
deriving DecidableEq, Repr

/-- A recorded side effect of one run.  mkdirAll and renameFS record the
attempt of the corresponding syscall; createFile and writeFile record the
journal file being created and its content being written; println records
terminal output (not a filesystem mutation). -/
inductive Effect where
  | mkdirAll (path : String)
  | renameFS (source target : String)
  | createFile (path : String)
  | writeFile (path : String) (content : MapFile)
  | println (msg : String)
deriving DecidableEq, Repr

/-- Whether an effect mutates the filesystem (terminal output does not). -/
def Effect.isFsMutation : Effect → Bool
  | .println _ => false
  | _ => true

/-- Whether an effect writes journal content to a file. -/
def Effect.isJournalWrite : Effect → Bool
  | .writeFile _ _ => true
  | _ => false

/-- Oracle for the external world: the result of each filesystem primitive
(none means success; some e is the error message e), the decoded journal for
a given path, the current time, and the stat results used by the
user-requested pre-sort. -/
structure Env where
  mkdirResult : String → Option String
  renameResult : String → String → Option String
  createResult : String → Option String
  readFileJournal : String → Except String MapFile
  now : DateTime
  fileSize : String → Int
  fileTime : String → String → Int

/-- Operation mirrors the Go struct Operation (the fields the embedded
functions read; display-only fields are kept for completeness). -/
structure Operation where
  paths : List Change := []
  «matches» : List Change := []
  conflicts : List ConflictRecord := []
  findString : String := ""
  replacement : String := ""
  exec : Bool := false
  fixConflicts : Bool := false
  includeHidden : Bool := false
  includeDir : Bool := false
  onlyDir : Bool := false
  ignoreCase : Bool := false
  ignoreExt : Bool := false
  undoFile : String := ""
  outputFile : String := ""
  stringMode : Bool := false
  excludeFilter : List String := []
  sort : String := ""
  reverseSort : Bool := false
  quiet : Bool := false
  errors : List RenameError := []
deriving DecidableEq, Repr

/-- The blocking conflict error (errConflictDetected, color codes elided). -/
def errConflictDetected : String :=
  "Conflict detected! Please resolve before proceeding or append the -F flag to fix conflicts automatically"

/-- Model of Go filepath.Join for two components on a POSIX system, for the
clean inputs used here (no redundant separators or dot segments). -/
def filepathJoin (a b : String) : String :=
  if a = "" then b else if b = "" then a else a ++ "/" ++ b

/-- Whether the target names a subdirectory (the POSIX arm of the check in
Operation.rename; the backslash arm only runs on Windows). -/
def containsSlash (s : String) : Bool := s.data.contains '/'

/-- Model of Go filepath.Dir on POSIX for clean inputs: everything before the
last separator, a bare "/" for a root entry, "." when there is none. -/
def filepathDir (s : String) : String :=
  match (s.data.reverse).dropWhile (fun c => c ≠ '/') with
  | [] => "."
  | _ :: rest => if rest = [] then "/" else String.mk rest.reverse

/-- Go insertion sort step: the new element a bubbles left past the already
sorted elements while less a prev holds.  The accumulated list is kept in
reverse order (head = rightmost element). -/
def insertGoRev (less : α → α → Bool) (a : α) : List α → List α
  | [] => [a]
  | b :: rest => if less a b then b :: insertGoRev less a rest else a :: b :: rest

/-- Driver for the insertion sort, carrying the processed prefix reversed. -/
def goSortAux (less : α → α → Bool) : List α → List α → List α
  | rev, [] => rev.reverse
  | rev, x :: xs => goSortAux less (insertGoRev less x rev) xs

/-- Model of Go sort.SliceStable.  Go runs exactly this insertion sort on
slices of fewer than about 20 elements; on longer slices it merges sorted
blocks, which agrees with the insertion sort whenever the comparator is a
valid (irreflexive, asymmetric, transitive) ordering, since the stable
sorted permutation is then unique. -/
def sliceStable (less : α → α → Bool) (l : List α) : List α := goSortAux less [] l

/-- The comparator of Operation.sortMatches, verbatim from the source:
in undo mode shorter base directories first; otherwise report any file as
less than everything, and order directories by descending base-directory
length. -/
def sortMatchesLess (undoFile : String) (a b : Change) : Bool :=
  if undoFile ≠ "" then decide (a.baseDir.length < b.baseDir.length)
  else if !a.isDir then true
  else decide (a.baseDir.length > b.baseDir.length)

/-- Operation.sortMatches: stable-sort the matches with the above comparator. -/
def sortMatches (op : Operation) : Operation :=
  { op with «matches» := sliceStable (sortMatchesLess op.undoFile) op.matches }

/-- The comparator of Operation.sortBySize (file sizes via the Env). -/
def sortBySizeLess (env : Env) (reverseSort : Bool) (a b : Change) : Bool :=
  let ia := env.fileSize (filepathJoin a.baseDir a.source)
  let jb := env.fileSize (filepathJoin b.baseDir b.source)
  if reverseSort then decide (ia < jb) else decide (ia > jb)

/-- The comparator of Operation.sortByTime (timestamps via the Env, keyed by
the requested attribute). -/
def sortByTimeLess (env : Env) (key : String) (reverseSort : Bool) (a b : Change) : Bool :=
  let it := env.fileTime key (filepathJoin a.baseDir a.source)
  let jt := env.fileTime key (filepathJoin b.baseDir b.source)
  if reverseSort then decide (it < jt) else decide (it > jt)

/-- Operation.sortBy: dispatch on the sort key. -/
def sortBy (env : Env) (op : Operation) : Operation :=
  if op.sort = "size" then
    { op with «matches» := sliceStable (sortBySizeLess env op.reverseSort) op.matches }
  else if op.sort = "atime" ∨ op.sort = "mtime" ∨ op.sort = "btime" ∨ op.sort = "ctime" then
    { op with «matches» := sliceStable (sortByTimeLess env op.sort op.reverseSort) op.matches }
  else op

/-- Full source path of a change. -/
def joinSource (c : Change) : String := filepathJoin c.baseDir c.source

/-- Full target path of a change. -/
def joinTarget (c : Change) : String := filepathJoin c.baseDir c.target

/-- One iteration of the loop in Operation.rename: create missing parent
directories when the target has a separator (skipping the rename when that
fails), then attempt the rename; the recorded error, if any, plus the
attempted effects. -/
def renameStep (env : Env) (ch : Change) : Option String × List Effect :=
  let source := joinSource ch
  let target := joinTarget ch
  if containsSlash ch.target then
    let dpath := filepathJoin ch.baseDir (filepathDir ch.target)
    match env.mkdirResult dpath with
    | some e => (some e, [Effect.mkdirAll dpath])
    | none =>
      match env.renameResult source target with
      | some e => (some e, [Effect.mkdirAll dpath, Effect.renameFS source target])
      | none => (none, [Effect.mkdirAll dpath, Effect.renameFS source target])
  else
    match env.renameResult source target with
    | some e => (some e, [Effect.renameFS source target])
    | none => (none, [Effect.renameFS source target])

/-- Operation.rename: iterate over all the matches, aggregating errors
instead of stopping at the first one; returns the aggregated errors (the
final op.errors) and the effect trace. -/
def renameAll (env : Env) : List Change → List RenameError × List Effect
  | [] => ([], [])
  | ch :: rest =>
    let step := renameStep env ch
    let next := renameAll env rest
    (match step.1 with
     | some msg => { entry := ch, err := msg } :: next.1
     | none => next.1,
     step.2 ++ next.2)

/-- Decimal rendering of a Go int (fmt "%d", Go time layout "2" for the day). -/
def decStr (n : Nat) : String := Nat.repr n

/-- Two-digit zero padding (Go time layouts "01", "15", "04", "05"). -/
def pad2 (n : Nat) : String := if n < 10 then "0" ++ Nat.repr n else Nat.repr n

/-- Four-digit zero padding (Go time layout "2006" for the year). -/
def pad4 (n : Nat) : String :=
  if n < 10 then "000" ++ Nat.repr n
  else if n < 100 then "00" ++ Nat.repr n
  else if n < 1000 then "0" ++ Nat.repr n
  else Nat.repr n

/-- Go time layout element "PM": the meridiem marker of the hour. -/
def meridiem (h : Nat) : String := if h < 12 then "AM" else "PM"

/-- Go time.Format with layout "2006-01-2T15-04-05PM" as written in
Operation.handleErrors: zero-padded month, hour, minute and second, but an
UNPADDED day-of-month (layout element "2", not "02"). -/
def goFormatRecovery (dt : DateTime) : String :=
  pad4 dt.year ++ "-" ++ pad2 dt.month ++ "-" ++ decStr dt.day ++ "T" ++
    pad2 dt.hour ++ "-" ++ pad2 dt.minute ++ "-" ++ pad2 dt.second ++ meridiem dt.hour

/-- The auto-generated recovery journal filename built in handleErrors. -/
def recoveryFileName (dt : DateTime) : String :=
  ".f2_" ++ goFormatRecovery dt ++ ".json"

/-- Go time.Format with layout time.RFC3339 (UTC), used for the journal date
field in writeToFile. -/
def rfc3339 (dt : DateTime) : String :=
  pad4 dt.year ++ "-" ++ pad2 dt.month ++ "-" ++ pad2 dt.day ++ "T" ++
    pad2 dt.hour ++ ":" ++ pad2 dt.minute ++ ":" ++ pad2 dt.second ++ "Z"

/-- Operation.writeToFile: create or truncate the output file and write the
JSON journal holding the current matches.  JSON encoding of mapFile cannot
fail, and decoding what was encoded yields the same record, so the content
is recorded structurally. -/
def writeToFile (env : Env) (op : Operation) (outputFile : String) :
    Option String × List Effect :=
  match env.createResult outputFile with
  | some e => (some e, [])
  | none =>
    (none,
     [Effect.createFile outputFile,
      Effect.writeFile outputFile { date := rfc3339 env.now, operations := op.matches }])

/-- The error message naming the recovery file in handleErrors. -/
def recoveryMsg (file : String) : String :=
  "Some files could not be renamed. The successful operations have been written to " ++
    file ++ ". To revert the changes, pass this file to the --undo flag"

/-- The removal loop at the top of Operation.handleErrors: for each recorded
error, walk the matches downward and remove every match whose Target equals
the error entry Target.  Downward removal of every hit is exactly a filter,
folded over the errors in order. -/
def removeErrorTargets (errors : List RenameError) (ms0 : List Change) : List Change :=
  errors.foldl (fun ms e => ms.filter (fun m => m.target ≠ e.entry.target)) ms0

/-- Operation.handleErrors: drop the error entries from the matches, report,
then write the survivors to the auto-named recovery file and return the
terminal error. -/
def handleErrors (env : Env) (op : Operation) : Option String × Operation × List Effect :=
  let ms := removeErrorTargets op.errors op.matches
  let op1 : Operation := { op with «matches» := ms }
  let file := recoveryFileName env.now
  let reportEffs := [Effect.println "errors table"]
  if 0 < ms.length then
    let w := writeToFile env op1 file
    if w.1 = none then (some (recoveryMsg file), op1, reportEffs ++ w.2)
    else (some "The above files could not be renamed", op1, reportEffs ++ w.2)
  else
    (some "The renaming operation failed due to the above errors", op1, reportEffs)

/-- The conflict detector interface: Operation.validate lives outside
operation.go; apply consults only the conflict collection it reports and the
matches it leaves behind, both functions of the current matches and of the
auto-fix flag (per the spec it reads the filesystem but never writes, and
quiet only silences reporting).  The embedding is parameterized over it. -/
abbrev Validator := List Change → Bool → List ConflictRecord × List Change

/-- Modelled from the spec: the duplicate-target detection of the conflict
validator (Operation.validate is not part of src/operation.go).  Two or more
candidates whose computed targets join to the same path are reported
together under one conflict kind; the matches are left unchanged when no
auto-fix runs. -/
def specValidate : Validator := fun ms _ =>
  let dups := ms.filter (fun m =>
    1 < (ms.filter (fun m2 => joinTarget m2 = joinTarget m)).length)
  (if dups = [] then [] else [{ kind := "duplicateTarget", changes := dups }], ms)

/-- The validate call at the top of apply: record the reported conflicts and
the possibly rewritten matches on the operation. -/
def applyValidate (vfn : Validator) (op : Operation) : Operation :=
  { op with
    conflicts := (vfn op.matches op.fixConflicts).1
    «matches» := (vfn op.matches op.fixConflicts).2 }

/-- The execute branch of Operation.apply: sort when directories are included
or when undoing, rename everything, then hand partial failures to
handleErrors or write the requested output file. -/
def applyExec (env : Env) (op : Operation) : Option String × Operation × List Effect :=
  let op2 := if op.includeDir = true ∨ op.undoFile ≠ "" then sortMatches op else op
  let r := renameAll env op2.matches
  let op3 : Operation := { op2 with errors := r.1 }
  if 0 < op3.errors.length then
    ((handleErrors env op3).1, (handleErrors env op3).2.1, r.2 ++ (handleErrors env op3).2.2)
  else if op3.outputFile ≠ "" then
    ((writeToFile env op3 op3.outputFile).1, op3, r.2 ++ (writeToFile env op3 op3.outputFile).2)
  else
    (none, op3, r.2)

/-- Operation.apply: no matches is a quiet success; unresolved conflicts
without auto-fix block with errConflictDetected; otherwise execute, or
preview without touching the filesystem. -/
def apply (env : Env) (vfn : Validator) (op : Operation) :
    Option String × Operation × List Effect :=
  if op.matches.length = 0 then
    (none, op, if op.quiet then [] else [Effect.println "Failed to match any files"])
  else
    let op1 := applyValidate vfn op
    if 0 < op1.conflicts.length ∧ op1.fixConflicts = false then
      (some errConflictDetected, op1,
       if op1.quiet then [] else [Effect.println "conflicts report"])
    else if op1.exec then
      applyExec env op1
    else if op1.quiet then
      (none, op1, [])
    else
      (none, op1,
       [Effect.println "changes table",
        Effect.println "Append the -x flag to apply the above changes"])

/-- The source/target swap performed on each journal entry by undo. -/
def swapChange (v : Change) : Change := { v with source := v.target, target := v.source }

/-- Operation.undo: read and decode the journal, swap source and target on
every entry, optionally re-apply the user sort (only outside execute mode),
and hand the reversed set to apply. -/
def undo (env : Env) (vfn : Validator) (op : Operation) :
    Option String × Operation × List Effect :=
  match env.readFileJournal op.undoFile with
  | Except.error e => (some e, op, [])
  | Except.ok mf =>
    let op1 : Operation := { op with «matches» := mf.operations.map swapChange }
    let op2 := if op1.exec = false ∧ op1.sort ≠ "" then sortBy env op1 else op1
    apply env vfn op2

/-- The rename pairs (source, target) recorded in an effect trace. -/
def renamePairs : List Effect → List (String × String)
  | [] => []
  | Effect.renameFS s t :: rest => (s, t) :: renamePairs rest
  | _ :: rest => renamePairs rest

/-- Where a file initially at path p ends up after a sequence of renames is
performed in order. -/
def trackPath (l : List (String × String)) (p : String) : String :=
  l.foldl (fun cur r => if cur = r.1 then r.2 else cur) p

/-- Modelled from the spec: the recovery filename format the spec states,
".f2_" then YYYY-MM-DDTHH-MM-SS with every component zero padded (two-digit
day and month) then the meridiem marker then ".json"; to be compared with
recoveryFileName, which is built from the layout written in the source. -/
def specRecoveryFileName (dt : DateTime) : String :=
  ".f2_" ++ pad4 dt.year ++ "-" ++ pad2 dt.month ++ "-" ++ pad2 dt.day ++ "T" ++
    pad2 dt.hour ++ "-" ++ pad2 dt.minute ++ "-" ++ pad2 dt.second ++ meridiem dt.hour ++ ".json"

/-- An environment where every filesystem primitive succeeds and no journal
file exists. -/
def envAllOk : Env where
  mkdirResult := fun _ => none
  renameResult := fun _ _ => none
  createResult := fun _ => none
  readFileJournal := fun _ => Except.error "open journal: no such file or directory"
  now := ⟨2024, 1, 5, 10, 30, 0⟩
  fileSize := fun _ => 0
  fileTime := fun _ _ => 0

/-- A validator run that reports no conflicts and leaves the matches alone. -/
def vfnId : Validator := fun ms _ => ([], ms)

/-- Concrete batch: a file whose rename succeeds. -/
def okChange : Change := ⟨"a", "x", "z", false⟩

/-- Concrete batch: a second file, in another base directory, computing the
same target name "z", whose rename fails. -/
def failChange : Change := ⟨"bb", "y", "z", false⟩

/-- An environment where exactly the rename of failChange fails. -/
def envPartialFail : Env :=
  { envAllOk with
    renameResult := fun s _ => if s = "bb/y" then some "permission denied" else none }

/-- The executed batch holding okChange and failChange. -/
def opPartial : Operation := { «matches» := [okChange, failChange], exec := true }

/-- Concrete file and directory candidates for the execution-safety sort: the
file lives in a shorter base directory than the directory candidate. -/
def sortBugFile : Change := { baseDir := "a", source := "f", target := "g", isDir := false }

/-- The directory candidate with the longer base directory. -/
def sortBugDir : Change := { baseDir := "bb", source := "d", target := "e", isDir := true }

/-- Two candidates in the same directory computing the same target. -/
def dupChangeA : Change := ⟨"p", "s1", "t", false⟩

/-- The second candidate of the duplicate-target pair. -/
def dupChangeB : Change := ⟨"p", "s2", "t", false⟩

/-- An executed batch holding the duplicate-target pair. -/
def opDup : Operation := { «matches» := [dupChangeA, dupChangeB], exec := true }

/-- An empty executed batch. -/
def opEmpty : Operation := { «matches» := [], exec := true }

/-- A journal whose two entries, once source and target are swapped, compute
the same target path p/s: fed to undo, the duplicate-target detection fires. -/
def dupJournal : MapFile := ⟨"2024-01-05T10:30:00Z", [⟨"p", "s", "t1", false⟩, ⟨"p", "s", "t2", false⟩]⟩

/-- An environment serving dupJournal for every journal path. -/
def envDupJournal : Env := { envAllOk with readFileJournal := fun _ => Except.ok dupJournal }

/-- An undo operation in execute mode. -/
def opUndo : Operation := { undoFile := "journal.json", exec := true }

/-- A well-formed journal of two renames in distinct base directories. -/
def goodJournal : MapFile :=
  ⟨"2024-01-05T10:30:00Z", [⟨"d", "a", "b", false⟩, ⟨"dd", "x", "y", true⟩]⟩

/-- An environment serving goodJournal for every journal path. -/
def envGoodJournal : Env := { envAllOk with readFileJournal := fun _ => Except.ok goodJournal }

/-- First entry of a chained batch: it frees the path d/b. -/
def chainEntryA : Change := ⟨"d", "b", "c", false⟩

/-- Second entry of the chained batch: it moves into the freed path d/b.
Per the spec an existing target that is the source of another candidate in
the batch is not a conflict, so the chain validates. -/
def chainEntryB : Change := ⟨"d", "a", "b", false⟩

/-- The chained batch in execute mode, writing its journal to out.json. -/
def opChainApply : Operation :=
  { «matches» := [chainEntryA, chainEntryB], exec := true, outputFile := "out.json" }

/-- The journal a fully successful apply of the chained batch writes. -/
def chainJournal : MapFile := ⟨"2024-01-05T10:30:00Z", [chainEntryA, chainEntryB]⟩

/-- An environment serving chainJournal for every journal path. -/
def envChainJournal : Env := { envAllOk with readFileJournal := fun _ => Except.ok chainJournal }

/-- Claim C4: the executor attempts every candidate in order.  The aggregated
error list is exactly the per-candidate failures, each paired with its own
candidate, and the effect trace is the concatenation of every candidate's own
attempt effects, so no failure drops a later candidate's attempt and no
failure goes unrecorded. -/
theorem renameAll_attempts_every_candidate (env : Env) (ms : List Change) :
    (renameAll env ms).1 =
      ms.filterMap (fun ch =>
        ((renameStep env ch).1).map (fun e => { entry := ch, err := e })) ∧
    (renameAll env ms).2 = (ms.map (fun ch => (renameStep env ch).2)).flatten := by
  induction ms with
  | nil => exact ⟨rfl, rfl⟩
  | cons ch rest ih =>
    refine ⟨?_, ?_⟩
    · show (match (renameStep env ch).1 with
        | some msg => ({ entry := ch, err := msg } : RenameError) :: (renameAll env rest).1
        | none => (renameAll env rest).1) = _
      cases h : (renameStep env ch).1 with
      | none => simpa [List.filterMap_cons, h] using ih.1
      | some e => simpa [List.filterMap_cons, h] using ih.1
    · show (renameStep env ch).2 ++ (renameAll env rest).2 = _
      simpa using ih.2

/-- Claim C6 (evaluation at the failing input): in non-undo mode, the
execution-safety sort places the directory candidate sortBugDir before the
file candidate sortBugFile, because the comparator compares base-directory
lengths when its first argument is a directory even if the second is a file
(and it is not a valid strict weak order, since any two files each compare
less than the other). -/
theorem sortMatches_orders_directory_before_file :
    (sortMatches { «matches» := [sortBugFile, sortBugDir] }).matches
        = [sortBugDir, sortBugFile] ∧
    sortBugFile.isDir = false ∧ sortBugDir.isDir = true ∧
    ({ «matches» := [sortBugFile, sortBugDir] } : Operation).undoFile = "" := by
  decide

/-- Claim C5 (evaluation at the failing input): with okChange renamed
successfully and failChange (same target string in another base directory)
failing, handleErrors removes both from the journal set because it matches
on the bare Target field; no journal is written even though one rename
succeeded, and the run reports total failure. -/
theorem handleErrors_drops_successful_entry :
    envPartialFail.renameResult (joinSource okChange) (joinTarget okChange) = none ∧
    Effect.renameFS "a/x" "a/z" ∈ (apply envPartialFail vfnId opPartial).2.2 ∧
    (apply envPartialFail vfnId opPartial).2.1.matches = [] ∧
    (∀ e ∈ (apply envPartialFail vfnId opPartial).2.2, e.isJournalWrite = false) ∧
    (apply envPartialFail vfnId opPartial).1
        = some "The renaming operation failed due to the above errors" := by
  decide

/-- Claim C9: a batch with no matches is a successful no-op: apply returns no
error, leaves the operation unchanged, and records no filesystem effect. -/
theorem apply_empty_matches_noop (env : Env) (vfn : Validator) (op : Operation)
    (h : op.matches = []) :
    (apply env vfn op).1 = none ∧ (apply env vfn op).2.1 = op ∧
    ∀ e ∈ (apply env vfn op).2.2, e.isFsMutation = false := by
  have hl : op.matches.length = 0 := by rw [h]; rfl
  unfold apply
  rw [if_pos hl]
  refine ⟨rfl, rfl, ?_⟩
  cases hq : op.quiet <;> simp [Effect.isFsMutation]

/-- Witness for apply_empty_matches_noop at a concrete empty batch. -/
theorem apply_empty_matches_noop_witness :
    (apply envAllOk vfnId opEmpty).1 = none ∧
    (apply envAllOk vfnId opEmpty).2.1 = opEmpty ∧
    ∀ e ∈ (apply envAllOk vfnId opEmpty).2.2, e.isFsMutation = false :=
  apply_empty_matches_noop envAllOk vfnId opEmpty rfl

/-- For any day of month up to 31, the unpadded decimal rendering agrees with
the two-digit zero-padded one exactly when the day has two digits. -/
theorem decStr_eq_pad2_iff (d : Nat) (h1 : 1 ≤ d) (h2 : d ≤ 31) :
    decStr d = pad2 d ↔ 10 ≤ d := by
  interval_cases d <;> decide

/-- Appending the same prefix and suffix around two strings is injective. -/
theorem string_append_cancel (pre suf a b : String) :
    pre ++ (a ++ suf) = pre ++ (b ++ suf) ↔ a = b := by
  constructor
  · intro h
    have hd := congrArg String.data h
    simp only [String.data_append] at hd
    exact String.ext (List.append_cancel_right (List.append_cancel_left hd))
  · intro h
    rw [h]

/-- Claim C8 (counterexample): at a creation time with day of month 5, the
auto-generated recovery filename does not have the zero-padded two-digit-day
form the claim states. -/
theorem recoveryFileName_unpadded_day_counterexample :
    recoveryFileName ⟨2024, 1, 5, 10, 30, 0⟩ ≠ specRecoveryFileName ⟨2024, 1, 5, 10, 30, 0⟩ := by
  decide

/-- Claim C8 (amended): the recovery filename uses the Go layout
2006-01-2T15-04-05PM, whose day of month is unpadded, so it matches the
claimed zero-padded form exactly when the day has two digits (day at least
10); month, hour, minute and second are zero padded as claimed. -/
theorem recoveryFileName_padded_iff_day (dt : DateTime)
    (h1 : 1 ≤ dt.day) (h2 : dt.day ≤ 31) :
    recoveryFileName dt = specRecoveryFileName dt ↔ 10 ≤ dt.day := by
  have hshape : recoveryFileName dt =
      (".f2_" ++ pad4 dt.year ++ "-" ++ pad2 dt.month ++ "-") ++
        (decStr dt.day ++
          ("T" ++ pad2 dt.hour ++ "-" ++ pad2 dt.minute ++ "-" ++ pad2 dt.second ++
            meridiem dt.hour ++ ".json")) := by
    simp only [recoveryFileName, goFormatRecovery, String.append_assoc]
  have hshape2 : specRecoveryFileName dt =
      (".f2_" ++ pad4 dt.year ++ "-" ++ pad2 dt.month ++ "-") ++
        (pad2 dt.day ++
          ("T" ++ pad2 dt.hour ++ "-" ++ pad2 dt.minute ++ "-" ++ pad2 dt.second ++
            meridiem dt.hour ++ ".json")) := by
    simp only [specRecoveryFileName, String.append_assoc]
  rw [hshape, hshape2, string_append_cancel]
  exact decStr_eq_pad2_iff dt.day h1 h2

/-- Witness for recoveryFileName_padded_iff_day at a two-digit day. -/
theorem recoveryFileName_padded_iff_day_witness :
    (recoveryFileName ⟨2024, 11, 25, 13, 30, 0⟩
        = specRecoveryFileName ⟨2024, 11, 25, 13, 30, 0⟩) ↔ 10 ≤ 25 :=
  recoveryFileName_padded_iff_day ⟨2024, 11, 25, 13, 30, 0⟩ (by decide) (by decide)

/-- When the validator reports a conflict on a nonempty batch and auto-fix is
disabled, apply blocks with errConflictDetected and no filesystem mutation
(shared argument behind the conflict-blocking claims). -/
theorem apply_conflict_aux (env : Env) (vfn : Validator) (op : Operation)
    (hne : op.matches ≠ [])
    (hc : (vfn op.matches op.fixConflicts).1 ≠ [])
    (hfix : op.fixConflicts = false) :
    (apply env vfn op).1 = some errConflictDetected ∧
    ∀ e ∈ (apply env vfn op).2.2, e.isFsMutation = false := by
  have hl : ¬ op.matches.length = 0 := by
    simpa [List.length_eq_zero] using hne
  have hcond : 0 < (applyValidate vfn op).conflicts.length ∧
      (applyValidate vfn op).fixConflicts = false :=
    ⟨List.length_pos.mpr hc, hfix⟩
  unfold apply
  rw [if_neg hl, if_pos hcond]
  refine ⟨rfl, ?_⟩
  cases hq : (applyValidate vfn op).quiet <;> simp [Effect.isFsMutation]

/-- Claim C1: when the validator reports at least one conflict on a nonempty
batch and auto-fix is disabled, apply returns the blocking conflict error and
records no filesystem mutation: no rename, no directory creation, no journal
write. -/
theorem apply_blocks_on_conflicts (env : Env) (vfn : Validator) (op : Operation)
    (hne : op.matches ≠ [])
    (hc : (vfn op.matches op.fixConflicts).1 ≠ [])
    (hfix : op.fixConflicts = false) :
    (apply env vfn op).1 = some errConflictDetected ∧
    ∀ e ∈ (apply env vfn op).2.2, e.isFsMutation = false :=
  apply_conflict_aux env vfn op hne hc hfix

/-- Witness for apply_blocks_on_conflicts: the spec-modelled duplicate-target
detection fires on opDup and apply blocks it. -/
theorem apply_blocks_on_conflicts_witness :
    (apply envAllOk specValidate opDup).1 = some errConflictDetected ∧
    ∀ e ∈ (apply envAllOk specValidate opDup).2.2, e.isFsMutation = false :=
  apply_blocks_on_conflicts envAllOk specValidate opDup (by decide) (by decide) rfl

/-- Claim C7: in preview mode apply records no filesystem mutation, and its
whole result is independent of the filesystem oracle, so repeated runs over
the same candidate set produce the identical proposed target set. -/
theorem apply_preview_pure (env env2 : Env) (vfn : Validator) (op : Operation)
    (hexec : op.exec = false) :
    (∀ e ∈ (apply env vfn op).2.2, e.isFsMutation = false) ∧
    apply env vfn op = apply env2 vfn op := by
  have hex : (applyValidate vfn op).exec = false := hexec
  unfold apply
  by_cases hl : op.matches.length = 0
  · rw [if_pos hl, if_pos hl]
    refine ⟨?_, rfl⟩
    cases hq : op.quiet <;> simp [Effect.isFsMutation]
  · rw [if_neg hl, if_neg hl]
    by_cases hc : 0 < (applyValidate vfn op).conflicts.length ∧
        (applyValidate vfn op).fixConflicts = false
    · rw [if_pos hc, if_pos hc]
      refine ⟨?_, rfl⟩
      cases hq : (applyValidate vfn op).quiet <;> simp [Effect.isFsMutation]
    · rw [if_neg hc, if_neg hc, hex]
      refine ⟨?_, by simp⟩
      by_cases hq : (applyValidate vfn op).quiet = true
      · simp [hq]
      · simp [hq, Effect.isFsMutation]

/-- Witness for apply_preview_pure: a concrete preview run over two distinct
environments. -/
theorem apply_preview_pure_witness :
    (∀ e ∈ (apply envAllOk vfnId { «matches» := [okChange] }).2.2, e.isFsMutation = false) ∧
    apply envAllOk vfnId { «matches» := [okChange] }
      = apply envPartialFail vfnId { «matches» := [okChange] } :=
  apply_preview_pure envAllOk envPartialFail vfnId { «matches» := [okChange] } rfl

/-- handleErrors reads neither the quiet flag for its error value nor any
field the quiet flag could influence. -/
theorem handleErrors_fst_quiet (env : Env) (op : Operation) (q : Bool) :
    (handleErrors env { op with quiet := q }).1 = (handleErrors env op).1 := by
  obtain ⟨p, m, c, fs, r, ex, fc, ihid, idir, od, ic, ie, uf, outf, sm, ef, so, rs, qt, er⟩ := op
  unfold handleErrors
  dsimp only
  have hwEq : writeToFile env
      (Operation.mk p (removeErrorTargets er m) c fs r ex fc ihid idir od ic ie uf outf sm ef so rs q er)
      (recoveryFileName env.now)
    = writeToFile env
      (Operation.mk p (removeErrorTargets er m) c fs r ex fc ihid idir od ic ie uf outf sm ef so rs qt er)
      (recoveryFileName env.now) := rfl
  rw [hwEq]
  by_cases h : 0 < (removeErrorTargets er m).length
  · rw [if_pos h, if_pos h]
    by_cases hw : (writeToFile env
        (Operation.mk p (removeErrorTargets er m) c fs r ex fc ihid idir od ic ie uf outf sm ef so rs qt er)
        (recoveryFileName env.now)).1 = none
    · rw [if_pos hw, if_pos hw]
    · rw [if_neg hw, if_neg hw]
  · rw [if_neg h, if_neg h]

/-- The execute branch of apply returns an error value independent of the
quiet flag. -/
theorem applyExec_fst_quiet (env : Env) (op : Operation) (q : Bool) :
    (applyExec env { op with quiet := q }).1 = (applyExec env op).1 := by
  obtain ⟨p, m, c, fs, r, ex, fc, ihid, idir, od, ic, ie, uf, outf, sm, ef, so, rs, qt, er⟩ := op
  unfold applyExec
  dsimp only
  by_cases hs : idir = true ∨ uf ≠ ""
  · rw [if_pos hs, if_pos hs]
    unfold sortMatches
    dsimp only
    by_cases he : 0 < (renameAll env (sliceStable (sortMatchesLess uf) m)).1.length
    · rw [if_pos he, if_pos he]
      exact handleErrors_fst_quiet env
        (Operation.mk p (sliceStable (sortMatchesLess uf) m) c fs r ex fc ihid idir od ic ie uf outf sm ef so rs qt
          (renameAll env (sliceStable (sortMatchesLess uf) m)).1) q
    · rw [if_neg he, if_neg he]
      by_cases ho : outf ≠ ""
      · rw [if_pos ho, if_pos ho]
        exact rfl
      · rw [if_neg ho, if_neg ho]
  · rw [if_neg hs, if_neg hs]
    by_cases he : 0 < (renameAll env m).1.length
    · rw [if_pos he, if_pos he]
      exact handleErrors_fst_quiet env
        (Operation.mk p m c fs r ex fc ihid idir od ic ie uf outf sm ef so rs qt (renameAll env m).1) q
    · rw [if_neg he, if_neg he]
      by_cases ho : outf ≠ ""
      · rw [if_pos ho, if_pos ho]
        exact rfl
      · rw [if_neg ho, if_neg ho]

/-- Claim C10: the error value apply returns is independent of the quiet
flag; two runs over the same candidate set and configuration differing only
in quiet return the same error. -/
theorem apply_error_quiet_independent (env : Env) (vfn : Validator) (op : Operation) (q : Bool) :
    (apply env vfn { op with quiet := q }).1 = (apply env vfn op).1 := by
  obtain ⟨p, m, c, fs, r, ex, fc, ihid, idir, od, ic, ie, uf, outf, sm, ef, so, rs, qt, er⟩ := op
  unfold apply applyValidate
  dsimp only
  by_cases hl : m.length = 0
  · rw [if_pos hl, if_pos hl]
  · rw [if_neg hl, if_neg hl]
    by_cases hc : 0 < (vfn m fc).1.length ∧ fc = false
    · rw [if_pos hc, if_pos hc]
    · rw [if_neg hc, if_neg hc]
      by_cases hex : ex = true
      · rw [if_pos hex, if_pos hex]
        exact applyExec_fst_quiet env
          (Operation.mk p (vfn m fc).2 (vfn m fc).1 fs r ex fc ihid idir od ic ie uf outf sm ef so rs qt er) q
      · rw [if_neg hex, if_neg hex]
        by_cases hq1 : q = true
        · rw [if_pos hq1]
          by_cases hq2 : qt = true
          · rw [if_pos hq2]
          · rw [if_neg hq2]
        · rw [if_neg hq1]
          by_cases hq2 : qt = true
          · rw [if_pos hq2]
          · rw [if_neg hq2]

/-- Claim C3 (counterexample): an undo run CAN be blocked by the conflict
validator.  Undo of dupJournal, whose reversed entries carry duplicate
targets, hits the validate call inside apply and stops with the blocking
conflict error before any rename. -/
theorem undo_validator_blocks_counterexample :
    (undo envDupJournal specValidate opUndo).1 = some errConflictDetected ∧
    renamePairs (undo envDupJournal specValidate opUndo).2.2 = [] := by
  decide

/-- Claim C3 (amended): undo skips the matcher and the transformer, but the
reversed candidate set is handed to apply, which still invokes the conflict
validator; whenever the validator reports a conflict on the reversed set and
auto-fix is disabled, the undo batch is blocked with the conflict error and
no filesystem mutation happens. -/
theorem undo_blocked_by_validator (env : Env) (vfn : Validator) (op : Operation) (mf : MapFile)
    (hread : env.readFileJournal op.undoFile = Except.ok mf)
    (hexec : op.exec = true)
    (hne : mf.operations ≠ [])
    (hc : (vfn (mf.operations.map swapChange) op.fixConflicts).1 ≠ [])
    (hfix : op.fixConflicts = false) :
    (undo env vfn op).1 = some errConflictDetected ∧
    ∀ e ∈ (undo env vfn op).2.2, e.isFsMutation = false := by
  unfold undo
  rw [hread]
  dsimp only
  rw [if_neg (by simp [hexec])]
  exact apply_conflict_aux env vfn { op with «matches» := mf.operations.map swapChange }
    (by simpa using hne) hc hfix

/-- Witness for undo_blocked_by_validator at the concrete duplicate-target
journal. -/
theorem undo_blocked_by_validator_witness :
    (undo envDupJournal specValidate opUndo).1 = some errConflictDetected ∧
    ∀ e ∈ (undo envDupJournal specValidate opUndo).2.2, e.isFsMutation = false :=
  undo_blocked_by_validator envDupJournal specValidate opUndo dupJournal rfl rfl
    (by decide) (by decide) rfl

/-- renamePairs distributes over trace concatenation. -/
theorem renamePairs_append (l1 l2 : List Effect) :
    renamePairs (l1 ++ l2) = renamePairs l1 ++ renamePairs l2 := by
  induction l1 with
  | nil => rfl
  | cons e rest ih => cases e <;> simp [renamePairs, ih]

/-- One Go insertion step permutes: the inserted element joins the list. -/
theorem insertGoRev_perm (less : α → α → Bool) (a : α) (rev : List α) :
    (insertGoRev less a rev).Perm (a :: rev) := by
  induction rev with
  | nil => exact List.Perm.refl _
  | cons b rest ih =>
    unfold insertGoRev
    by_cases h : less a b
    · rw [if_pos h]
      exact (ih.cons b).trans (List.Perm.swap a b rest)
    · rw [if_neg h]

/-- The insertion sort driver permutes its input. -/
theorem goSortAux_perm (less : α → α → Bool) (l : List α) :
    ∀ rev, (goSortAux less rev l).Perm (rev.reverse ++ l) := by
  induction l with
  | nil => intro rev; simp [goSortAux]
  | cons x xs ih =>
    intro rev
    unfold goSortAux
    refine (ih (insertGoRev less x rev)).trans ?_
    have h1 : ((insertGoRev less x rev).reverse ++ xs).Perm ((x :: rev) ++ xs) :=
      ((List.reverse_perm _).trans (insertGoRev_perm less x rev)).append_right xs
    refine h1.trans ?_
    have h2 : (rev.reverse ++ (x :: xs)).Perm (x :: (rev ++ xs)) :=
      (List.perm_middle).trans (((List.reverse_perm rev).append_right xs).cons x)
    exact (List.Perm.refl _).trans h2.symm

/-- The model of sort.SliceStable returns a permutation of its input. -/
theorem sliceStable_perm (less : α → α → Bool) (l : List α) :
    (sliceStable less l).Perm l := by
  simpa [sliceStable] using goSortAux_perm less l []

/-- trackPath over a concatenated rename sequence composes. -/
theorem trackPath_append (l1 l2 : List (String × String)) (p : String) :
    trackPath (l1 ++ l2) p = trackPath l2 (trackPath l1 p) :=
  List.foldl_append ..

/-- A path no rename starts from is left untouched. -/
theorem trackPath_not_mem (l : List (String × String)) (p : String)
    (h : p ∉ l.map Prod.fst) : trackPath l p = p := by
  induction l with
  | nil => rfl
  | cons r rest ih =>
    simp only [List.map_cons, List.mem_cons, not_or] at h
    show trackPath rest (if p = r.1 then r.2 else p) = p
    rw [if_neg h.1]
    exact ih h.2

/-- When every directory creation and rename succeeds, the executor records
no error and its rename trace is exactly one rename per candidate, source to
target, in order. -/
theorem renameAll_all_success (env : Env)
    (hmk : ∀ p, env.mkdirResult p = none)
    (hrn : ∀ s t, env.renameResult s t = none) (ms : List Change) :
    (renameAll env ms).1 = [] ∧
    renamePairs (renameAll env ms).2 = ms.map (fun ch => (joinSource ch, joinTarget ch)) := by
  induction ms with
  | nil => exact ⟨rfl, rfl⟩
  | cons ch rest ih =>
    have hstep : renameStep env ch =
        (none,
         if containsSlash ch.target then
           [Effect.mkdirAll (filepathJoin ch.baseDir (filepathDir ch.target)),
            Effect.renameFS (joinSource ch) (joinTarget ch)]
         else [Effect.renameFS (joinSource ch) (joinTarget ch)]) := by
      unfold renameStep
      by_cases h : containsSlash ch.target
      · simp [h, hmk, hrn]
      · simp [h, hrn]
    have hun : renameAll env (ch :: rest) =
        (match (renameStep env ch).1 with
         | some msg => ({ entry := ch, err := msg } : RenameError) :: (renameAll env rest).1
         | none => (renameAll env rest).1,
         (renameStep env ch).2 ++ (renameAll env rest).2) := rfl
    rw [hun, hstep]
    refine ⟨ih.1, ?_⟩
    by_cases h : containsSlash ch.target
    · simp only [if_pos h]
      rw [show renamePairs
            ([Effect.mkdirAll (filepathJoin ch.baseDir (filepathDir ch.target)),
              Effect.renameFS (joinSource ch) (joinTarget ch)] ++ (renameAll env rest).2)
          = (joinSource ch, joinTarget ch) :: renamePairs (renameAll env rest).2 from rfl]
      rw [ih.2]
      rfl
    · simp only [if_neg h]
      rw [show renamePairs
            ([Effect.renameFS (joinSource ch) (joinTarget ch)] ++ (renameAll env rest).2)
          = (joinSource ch, joinTarget ch) :: renamePairs (renameAll env rest).2 from rfl]
      rw [ih.2]
      rfl

/-- Executing, in any order, one rename per swapped journal entry over
pairwise distinct paths moves the file each entry left at its target back to
its original source path. -/
theorem trackPath_restores (A sorted : List Change)
    (hperm : sorted.Perm (A.map swapChange))
    (hnd : (A.map joinSource ++ A.map joinTarget).Nodup) :
    ∀ c ∈ A,
      trackPath (sorted.map (fun ch => (joinSource ch, joinTarget ch))) (joinTarget c)
        = joinSource c := by
  intro c hc
  have hT : (A.map joinTarget).Nodup := (List.nodup_append.mp hnd).2.1
  have hdisj : (A.map joinSource).Disjoint (A.map joinTarget) := (List.nodup_append.mp hnd).2.2
  have hpermJs : (sorted.map joinSource).Perm (A.map joinTarget) := by
    have h1 := hperm.map joinSource
    rw [List.map_map] at h1
    exact h1
  have hndSorted : (sorted.map joinSource).Nodup := hpermJs.symm.nodup hT
  have hsc : swapChange c ∈ sorted := hperm.mem_iff.mpr (List.mem_map_of_mem swapChange hc)
  obtain ⟨u, v, huv⟩ := List.append_of_mem hsc
  have hdecomp : sorted.map joinSource
      = u.map joinSource ++ joinTarget c :: v.map joinSource := by
    rw [huv, List.map_append, List.map_cons]
    rfl
  rw [hdecomp] at hndSorted
  have hA : joinTarget c ∉ u.map joinSource := by
    intro hmem
    exact (List.nodup_append.mp hndSorted).2.2 hmem (List.mem_cons_self _ _)
  have hB : joinSource c ∉ v.map joinSource := by
    intro hmem
    have h1 : joinSource c ∈ sorted.map joinSource := by
      rw [hdecomp]
      exact List.mem_append.mpr (Or.inr (List.mem_cons_of_mem _ hmem))
    exact hdisj (List.mem_map_of_mem joinSource hc) (hpermJs.mem_iff.mp h1)
  rw [huv, List.map_append, List.map_cons, trackPath_append]
  rw [trackPath_not_mem (u.map (fun ch => (joinSource ch, joinTarget ch))) (joinTarget c)
    (by intro hm; rw [List.map_map] at hm; exact hA hm)]
  have hhead : trackPath
      ((fun ch => (joinSource ch, joinTarget ch)) (swapChange c)
        :: v.map (fun ch => (joinSource ch, joinTarget ch))) (joinTarget c)
      = trackPath (v.map (fun ch => (joinSource ch, joinTarget ch))) (joinSource c) := by
    show trackPath (v.map (fun ch => (joinSource ch, joinTarget ch)))
        (if joinTarget c = joinSource (swapChange c) then joinTarget (swapChange c)
         else joinTarget c) = _
    rw [if_pos (show joinTarget c = joinSource (swapChange c) from rfl)]
    rfl
  rw [hhead]
  rw [trackPath_not_mem (v.map (fun ch => (joinSource ch, joinTarget ch))) (joinSource c)
    (by intro hm; rw [List.map_map] at hm; exact hB hm)]

/-- Claim C2 (counterexample): the chained batch d/b to d/c together with
d/a to d/b passes the duplicate-target validation, applies fully
successfully and writes its journal; yet undoing that journal does not
restore the first entry byte-for-byte: the undo renames run in journal
order, so the file the first entry left at d/c ends at d/a, not at its
original name d/b. -/
theorem undo_chain_not_restored_counterexample :
    (apply envAllOk specValidate opChainApply).1 = none ∧
    Effect.writeFile "out.json" ⟨rfc3339 envAllOk.now, [chainEntryA, chainEntryB]⟩
      ∈ (apply envAllOk specValidate opChainApply).2.2 ∧
    (undo envChainJournal specValidate opUndo).1 = none ∧
    renamePairs (undo envChainJournal specValidate opUndo).2.2
      = [(joinTarget chainEntryA, joinSource chainEntryA),
         (joinTarget chainEntryB, joinSource chainEntryB)] ∧
    trackPath (renamePairs (undo envChainJournal specValidate opUndo).2.2)
        (joinTarget chainEntryA) ≠ joinSource chainEntryA := by
  decide

/-- Claim C2 (amended): undo swaps source and target on every journal entry
and re-applies the renames; provided the journal's recorded full source and
target paths are pairwise distinct (no entry's target is another entry's
source, so no chained or swapped renames in the batch), the validator
passes the reversed set and the filesystem cooperates, undo succeeds, its
executed renames are exactly the reversed pairs of the journal, and every
journal entry is moved from its recorded target back to its original source
path, byte for byte.  For a chained batch the restoration can fail, as the
counterexample shows. -/
theorem undo_restores_originals (env : Env) (vfn : Validator) (op : Operation) (mf : MapFile)
    (hread : env.readFileJournal op.undoFile = Except.ok mf)
    (hundo : op.undoFile ≠ "")
    (hexec : op.exec = true)
    (hout : op.outputFile = "")
    (hvfn : vfn (mf.operations.map swapChange) op.fixConflicts
      = ([], mf.operations.map swapChange))
    (hmk : ∀ p, env.mkdirResult p = none)
    (hrn : ∀ s t, env.renameResult s t = none)
    (hnd : (mf.operations.map joinSource ++ mf.operations.map joinTarget).Nodup) :
    (undo env vfn op).1 = none ∧
    (renamePairs (undo env vfn op).2.2).Perm
      (mf.operations.map (fun c => (joinTarget c, joinSource c))) ∧
    ∀ c ∈ mf.operations,
      trackPath (renamePairs (undo env vfn op).2.2) (joinTarget c) = joinSource c := by
  unfold undo
  rw [hread]
  dsimp only
  rw [if_neg (by simp [hexec])]
  by_cases hops : mf.operations = []
  · rw [hops]
    unfold apply
    rw [if_pos (by simp)]
    refine ⟨rfl, ?_, by intro c hc; cases hc⟩
    dsimp only
    by_cases hq : op.quiet = true
    · rw [if_pos hq]
      exact List.Perm.refl _
    · rw [if_neg hq]
      exact List.Perm.refl _
  · have hlen : ¬ ({ op with «matches» := mf.operations.map swapChange } : Operation).matches.length = 0 := by
      simp [List.length_eq_zero, hops]
    unfold apply applyValidate
    dsimp only
    rw [if_neg hlen]
    simp only [hvfn]
    rw [if_neg (by simp)]
    rw [if_pos hexec]
    unfold applyExec sortMatches
    dsimp only
    rw [if_pos (Or.inr hundo)]
    have hra := renameAll_all_success env hmk hrn
      (sliceStable (sortMatchesLess op.undoFile) (mf.operations.map swapChange))
    rw [if_neg (by simp [hra.1])]
    rw [if_neg (by simp [hout])]
    dsimp only
    rw [hra.2]
    have hperm : (sliceStable (sortMatchesLess op.undoFile) (mf.operations.map swapChange)).Perm
        (mf.operations.map swapChange) := sliceStable_perm _ _
    refine ⟨rfl, ?_, trackPath_restores mf.operations _ hperm hnd⟩
    have h1 := hperm.map (fun ch => (joinSource ch, joinTarget ch))
    rw [List.map_map] at h1
    exact h1

/-- Witness for undo_restores_originals at the concrete two-entry journal. -/
theorem undo_restores_originals_witness :
    (undo envGoodJournal vfnId opUndo).1 = none ∧
    (renamePairs (undo envGoodJournal vfnId opUndo).2.2).Perm
      (goodJournal.operations.map (fun c => (joinTarget c, joinSource c))) ∧
    ∀ c ∈ goodJournal.operations,
      trackPath (renamePairs (undo envGoodJournal vfnId opUndo).2.2) (joinTarget c)
        = joinSource c :=
  undo_restores_originals envGoodJournal vfnId opUndo goodJournal rfl (by decide) rfl rfl
    rfl (fun _ => rfl) (fun _ _ => rfl) (by decide)

end F2


